import Mathlib

/-!
Verification development for the claude-remote repository.

The definitions below are a shallow embedding of the TypeScript sources:
JavaScript `Map`s become insertion-ordered association lists, wall-clock
times become `Nat` (epoch milliseconds), sockets become numeric ids, and
side effects (socket sends) become explicit output lists.  Each namespace
names the source file whose code it embeds.
-/

namespace ClaudeRemote

/-- Model of a JavaScript `Map` as an insertion-ordered association list. -/
abbrev JMap (κ α : Type) := List (κ × α)

/-- Map lookup (`Map.get`). -/
def mapGet [BEq κ] (m : JMap κ α) (k : κ) : Option α :=
  (m.find? (fun e => e.1 == k)).map (·.2)

/-- Map insertion (`Map.set`): updates in place when the key is present,
otherwise appends, matching JavaScript insertion order. -/
def mapSet [BEq κ] (m : JMap κ α) (k : κ) (v : α) : JMap κ α :=
  if m.any (fun e => e.1 == k) then
    m.map (fun e => if e.1 == k then (k, v) else e)
  else
    m ++ [(k, v)]

/-- Map deletion (`Map.delete`). -/
def mapDel [BEq κ] (m : JMap κ α) (k : κ) : JMap κ α :=
  m.filter (fun e => !(e.1 == k))

/-- Map size (`Map.size`). -/
def mapSize (m : JMap κ α) : Nat := m.length

/-- Decidable equality of `Except` results, used to evaluate the
embeddings of fallible operations on concrete inputs. -/
instance {ε α : Type} [DecidableEq ε] [DecidableEq α] :
    DecidableEq (Except ε α) := fun a b =>
  match a, b with
  | .ok x, .ok y => decidable_of_iff (x = y) (by simp)
  | .error x, .error y => decidable_of_iff (x = y) (by simp)
  | .ok _, .error _ => isFalse (by intro hc; cases hc)
  | .error _, .ok _ => isFalse (by intro hc; cases hc)

/-- Declared platform of a device (`'desktop' | 'web'`). -/
inductive Platform where
  | desktop
  | web
deriving DecidableEq, Repr

/-! ## packages/relay/src/types.ts and pairing.ts: shared store shapes

The relay package and the embedded server declare structurally identical
`ConnectedClient` / `PendingPair` / `Room` / `ConnectionStore` interfaces;
we declare them once.  The live socket of a client is modelled by a
numeric id `ws`. -/

/-- Live authenticated connection (`ConnectedClient`). -/
structure ConnectedClient where
  ws : Nat
  deviceId : String
  deviceName : String
  platform : Platform
  pairId : Option String
  lastPing : Nat
deriving DecidableEq, Repr

/-- Pending pairing code entry (`PendingPair`). -/
structure PendingPair where
  pairCode : String
  deviceId : String
  deviceName : String
  platform : Platform
  expiresAt : Nat
deriving DecidableEq, Repr

/-- Room binding a desktop device and a web device (`Room`). -/
structure Room where
  pairId : String
  desktopDeviceId : Option String
  webDeviceId : Option String
  createdAt : Nat
deriving DecidableEq, Repr

/-- The hub state (`ConnectionStore`). -/
structure ConnectionStore where
  clients : JMap String ConnectedClient
  pendingPairs : JMap String PendingPair
  rooms : JMap String Room
deriving DecidableEq, Repr

/-- Result of a pair confirmation (`PairResult` in shared/types.ts). -/
structure PairResult where
  success : Bool
  pairId : Option String
  error : Option String
deriving DecidableEq, Repr

namespace Pairing

/-! ## packages/relay/src/pairing.ts: PairingService (cloud variant) -/

/-- Pair-code expiry from shared constants: 5 minutes in milliseconds. -/
def PAIR_CODE_EXPIRY_MS : Nat := 5 * 60 * 1000

/-- Code alphabet used by `generatePairCode` (excludes `0 O 1 I`). -/
def pairChars : List Char := "ABCDEFGHJKLMNPQRSTUVWXYZ23456789".toList

/-- Embedding of `generatePairCode` (8 characters, a dash inserted before
index 4).  The random draws `Math.floor(Math.random() * chars.length)`
are supplied by the oracle `r`. -/
def generatePairCode (r : Nat → Fin 32) : String :=
  String.mk <| (List.range 8).flatMap fun i =>
    (if i = 4 then ['-'] else []) ++ [pairChars.getD (r i).val 'A']

/-- Embedding of `PairingService.requestPairCode`.  The wall clock `now`
stands for `Date.now()` and `r` feeds `generatePairCode`.  Returns the
`{pairCode, expiresAt}` payload together with the updated store. -/
def requestPairCode (r : Nat → Fin 32) (now : Nat) (store : ConnectionStore)
    (deviceId deviceName : String) (platform : Platform) :
    (String × Nat) × ConnectionStore :=
  let pendingAfterDelete :=
    store.pendingPairs.filter (fun e => !(e.2.deviceId == deviceId))
  let pairCode := generatePairCode r
  let expiresAt := now + PAIR_CODE_EXPIRY_MS
  let entry : PendingPair :=
    { pairCode := pairCode, deviceId := deviceId, deviceName := deviceName
      platform := platform, expiresAt := expiresAt }
  ((pairCode, expiresAt),
   { store with pendingPairs := mapSet pendingAfterDelete pairCode entry })

/-- Characters kept by the regular expression `[^A-Z0-9]` replacement. -/
def isCodeChar (c : Char) : Bool :=
  ('A' ≤ c && c ≤ 'Z') || ('0' ≤ c && c ≤ '9')

/-- Embedding of `pairCode.toUpperCase().replace(/[^A-Z0-9]/g, '')`. -/
def normalizeCode (s : String) : String :=
  String.mk ((s.toList.map Char.toUpper).filter isCodeChar)

/-- Embedding of the dash re-insertion
`normalizedCode.slice(0, 4) + '-' + normalizedCode.slice(4)`. -/
def formatCode (n : String) : String :=
  n.take 4 ++ "-" ++ n.drop 4

/-- Helper used by `confirmPairCode`: set `client.pairId = pairId` for a
device when its connection is present, mirroring the two in-place client
updates at the end of the source function. -/
def setClientPairId (clients : JMap String ConnectedClient)
    (deviceId pairId : String) : JMap String ConnectedClient :=
  match mapGet clients deviceId with
  | none => clients
  | some c => mapSet clients deviceId { c with pairId := some pairId }

/-- Embedding of `PairingService.confirmPairCode`.  `uuid` stands for the
freshly drawn `uuidv4()` and `now` for `Date.now()`. -/
def confirmPairCode (uuid : String) (now : Nat) (store : ConnectionStore)
    (pairCode deviceId _deviceName : String) (platform : Platform) :
    PairResult × ConnectionStore :=
  let normalizedCode := normalizeCode pairCode
  let formattedCode := formatCode normalizedCode
  match mapGet store.pendingPairs formattedCode with
  | none =>
      ({ success := false, pairId := none, error := some "Invalid pair code" },
       store)
  | some pendingPair =>
      if now > pendingPair.expiresAt then
        ({ success := false, pairId := none, error := some "Pair code expired" },
         { store with pendingPairs := mapDel store.pendingPairs formattedCode })
      else if pendingPair.platform = platform then
        ({ success := false, pairId := none,
           error := some "Cannot pair same device types" },
         store)
      else
        let room : Room :=
          { pairId := uuid
            desktopDeviceId :=
              some (if platform = .web then pendingPair.deviceId else deviceId)
            webDeviceId :=
              some (if platform = .web then deviceId else pendingPair.deviceId)
            createdAt := now }
        let clients' :=
          setClientPairId
            (setClientPairId store.clients pendingPair.deviceId uuid)
            deviceId uuid
        ({ success := true, pairId := some uuid, error := none },
         { clients := clients'
           pendingPairs := mapDel store.pendingPairs formattedCode
           rooms := mapSet store.rooms uuid room })

/-- Embedding of `PairingService.getPairedDevice`. -/
def getPairedDevice (store : ConnectionStore) (deviceId : String) :
    Option String :=
  match mapGet store.clients deviceId with
  | none => none
  | some client =>
      match client.pairId with
      | none => none
      | some pairId =>
          match mapGet store.rooms pairId with
          | none => none
          | some room =>
              if room.desktopDeviceId = some deviceId then room.webDeviceId
              else room.desktopDeviceId

end Pairing

/-- Wire message payload (`MessagePayload` in shared/types.ts). -/
structure MessagePayload where
  id : String
  content : String
  timestamp : Nat
  sessionId : String
deriving DecidableEq, Repr

/-- Session-control frame tags (`session_*` members of `WSMessage`). -/
inductive SessionKind where
  | list
  | create
  | created
  | switch
  | switched
  | delete
  | deleted
  | sessionErr
deriving DecidableEq, Repr

/-- WebSocket frames: the subset of `WSMessage` the relay code touches.
Session-control frames carry their body opaquely as `data`, since the
relay never inspects it. -/
inductive WSFrame where
  | message (payload : MessagePayload)
  | sessionCtl (kind : SessionKind) (data : String)
  | error (error : String)
  | paired (pairId : String)
  | peerOffline
deriving DecidableEq, Repr

/-- Embedding of `findClientByWs`: linear scan of the client map values
for the client owning the given socket (identical in RelayServer and
EmbeddedServer). -/
def findClientByWs (store : ConnectionStore) (ws : Nat) :
    Option ConnectedClient :=
  (store.clients.map (·.2)).find? (fun c => c.ws == ws)

namespace RelayServer

/-! ## packages/relay/src/server.ts (src/unnamed/part_005): RelayServer

The relay handlers return the list of `(socket, frame)` sends they
perform via `sendMessage`. -/

/-- Embedding of `RelayServer.handleRelayMessage` (the `message` frame
relay).  Returns the sends performed. -/
def handleRelayMessage (store : ConnectionStore) (ws : Nat)
    (frame : WSFrame) : List (Nat × WSFrame) :=
  match findClientByWs store ws with
  | none => [(ws, .error "Not authenticated")]
  | some client =>
      match client.pairId with
      | none => [(ws, .error "Not paired")]
      | some _ =>
          match Pairing.getPairedDevice store client.deviceId with
          | none => [(ws, .error "Paired device not found")]
          | some pairedDeviceId =>
              match mapGet store.clients pairedDeviceId with
              | none => [(ws, .error "Paired device offline")]
              | some pairedClient => [(pairedClient.ws, frame)]

/-- Embedding of `RelayServer.handleRelaySessionMessage` (the `session_*`
frame relay): identical lookup chain, but silent when the peer cannot be
resolved or is offline. -/
def handleRelaySessionMessage (store : ConnectionStore) (ws : Nat)
    (frame : WSFrame) : List (Nat × WSFrame) :=
  match findClientByWs store ws with
  | none => [(ws, .error "Not authenticated")]
  | some client =>
      match client.pairId with
      | none => [(ws, .error "Not paired")]
      | some _ =>
          match Pairing.getPairedDevice store client.deviceId with
          | none => []
          | some pairedDeviceId =>
              match mapGet store.clients pairedDeviceId with
              | none => []
              | some pairedClient => [(pairedClient.ws, frame)]

end RelayServer

namespace Embedded

/-! ## packages/relay/src/pairing.ts, second half: EmbeddedServer

The embedded (LAN) variant.  Its `ConnectedClient` / `PendingPair` /
`Room` / `ConnectionStore` declarations are structurally identical to the
relay ones, so the shared structures above are reused. -/

/-- Embedded pair-code length (4, no dash). -/
def PAIR_CODE_LENGTH : Nat := 4

/-- Embedding of the embedded `generatePairCode` (4 characters, no
separator), randomness supplied by the oracle `r`. -/
def generatePairCode (r : Nat → Fin 32) : String :=
  String.mk <| (List.range PAIR_CODE_LENGTH).map fun i =>
    Pairing.pairChars.getD (r i).val 'A'

/-- Embedding of `EmbeddedServer.requestPairCode` (same body as the cloud
variant except for the code generator). -/
def requestPairCode (r : Nat → Fin 32) (now : Nat) (store : ConnectionStore)
    (deviceId deviceName : String) (platform : Platform) :
    (String × Nat) × ConnectionStore :=
  let pendingAfterDelete :=
    store.pendingPairs.filter (fun e => !(e.2.deviceId == deviceId))
  let pairCode := generatePairCode r
  let expiresAt := now + Pairing.PAIR_CODE_EXPIRY_MS
  let entry : PendingPair :=
    { pairCode := pairCode, deviceId := deviceId, deviceName := deviceName
      platform := platform, expiresAt := expiresAt }
  ((pairCode, expiresAt),
   { store with pendingPairs := mapSet pendingAfterDelete pairCode entry })

/-- Embedding of `EmbeddedServer.confirmPairCode`: like the cloud variant
but the lookup key is the normalised code itself (no dash re-insertion),
and the room id comes from `generateUUID()` (parameter `uuid`). -/
def confirmPairCode (uuid : String) (now : Nat) (store : ConnectionStore)
    (pairCode deviceId _deviceName : String) (platform : Platform) :
    PairResult × ConnectionStore :=
  let normalizedCode := Pairing.normalizeCode pairCode
  match mapGet store.pendingPairs normalizedCode with
  | none =>
      ({ success := false, pairId := none, error := some "Invalid pair code" },
       store)
  | some pendingPair =>
      if now > pendingPair.expiresAt then
        ({ success := false, pairId := none, error := some "Pair code expired" },
         { store with pendingPairs := mapDel store.pendingPairs normalizedCode })
      else if pendingPair.platform = platform then
        ({ success := false, pairId := none,
           error := some "Cannot pair same device types" },
         store)
      else
        let isConfirmerWeb := platform = .web
        let desktopId := if isConfirmerWeb then pendingPair.deviceId else deviceId
        let webId := if isConfirmerWeb then deviceId else pendingPair.deviceId
        let room : Room :=
          { pairId := uuid, desktopDeviceId := some desktopId
            webDeviceId := some webId, createdAt := now }
        let clients' :=
          Pairing.setClientPairId
            (Pairing.setClientPairId store.clients pendingPair.deviceId uuid)
            deviceId uuid
        ({ success := true, pairId := some uuid, error := none },
         { clients := clients'
           pendingPairs := mapDel store.pendingPairs normalizedCode
           rooms := mapSet store.rooms uuid room })

/-- Embedding of `EmbeddedServer.getPairedDevice` (same body as the cloud
`PairingService.getPairedDevice`). -/
def getPairedDevice (store : ConnectionStore) (deviceId : String) :
    Option String :=
  Pairing.getPairedDevice store deviceId

/-- Embedding of `EmbeddedServer.relayMessage`: used for `message` and all
`session_*` frames; every failure path only logs, so no frame is ever sent
back to the sender. -/
def relayMessage (store : ConnectionStore) (ws : Nat) (frame : WSFrame) :
    List (Nat × WSFrame) :=
  match findClientByWs store ws with
  | none => []
  | some client =>
      match client.pairId with
      | none => []
      | some _ =>
          match getPairedDevice store client.deviceId with
          | none => []
          | some pairedDeviceId =>
              match mapGet store.clients pairedDeviceId with
              | none => []
              | some pairedClient => [(pairedClient.ws, frame)]

end Embedded

namespace Guard

/-! ## Directory-scope guard (packages/relay/src/session-manager.ts)

`path.resolve` is modelled for POSIX paths: resolve against the current
working directory `cwd`, split on `/`, drop empty and `.` components,
apply `..`, and re-join with a leading `/`. -/

/-- Splitting of a character list at `/` separators. -/
def splitSlashAux : List Char → List (List Char)
  | [] => [[]]
  | c :: rest =>
      match splitSlashAux rest with
      | [] => [[]]
      | g :: gs => if c = '/' then [] :: g :: gs else (c :: g) :: gs

/-- The `/`-separated components of a path string. -/
def splitSlash (s : String) : List String :=
  (splitSlashAux s.toList).map String.mk

/-- Joining path components with `/`. -/
def joinSlash : List String → String
  | [] => ""
  | [x] => x
  | x :: xs => x ++ "/" ++ joinSlash xs

/-- String prefix test (`startsWith`), via the underlying character
lists. -/
def strStartsWith (s pre : String) : Bool :=
  pre.toList.isPrefixOf s.toList

/-- Path component normalisation: drops empty and `.` components and pops
one component for each `..`. -/
def normComponents (l : List String) : List String :=
  l.foldl
    (fun acc c =>
      if c = "" ∨ c = "." then acc
      else if c = ".." then acc.dropLast
      else acc ++ [c])
    []

/-- Model of `path.resolve(p)` with current working directory `cwd`. -/
def resolvePath (cwd p : String) : String :=
  let full := if strStartsWith p "/" then p else cwd ++ "/" ++ p
  "/" ++ joinSlash (normComponents (splitSlash full))

/-- Embedding of `SessionManager.isDirectoryAllowed`: the candidate is
accepted iff some allow-list entry resolves to the same path or to a
proper ancestor followed by `path.sep`. -/
def isDirectoryAllowed (cwd : String) (allowedDirectories : List String)
    (targetDir : String) : Bool :=
  let normalizedTarget := resolvePath cwd targetDir
  allowedDirectories.any fun allowedDir =>
    let normalizedAllowed := resolvePath cwd allowedDir
    normalizedTarget == normalizedAllowed ||
      strStartsWith normalizedTarget (normalizedAllowed ++ "/")

end Guard

namespace RelaySession

/-! ## packages/relay/src/session-manager.ts: SessionManager

The filesystem is modelled as the list `fs` of existing paths
(`fs.existsSync(dir)` becomes membership of the literal string), and the
fresh session id and wall clock are parameters. -/

/-- Session record (`Session` in shared/types.ts). -/
structure Session where
  id : String
  name : String
  workingDirectory : String
  createdAt : Nat
  lastActiveAt : Nat
  messageCount : Nat
deriving DecidableEq, Repr

/-- Per-session bookkeeping (`SessionState`); the child process handle is
modelled by a flag recording whether a process is running. -/
structure SessionState where
  session : Session
  isFirstMessage : Bool
  claudeProcessRunning : Bool
deriving DecidableEq, Repr

/-- Relay-variant session configuration (`SessionConfig` in
shared/types.ts): an allow-list and a default directory, no cap. -/
structure SessionConfig where
  allowedDirectories : List String
  defaultDirectory : String
deriving DecidableEq, Repr

/-- Manager state: session map plus active session id. -/
structure MState where
  sessions : JMap String SessionState
  activeSessionId : Option String
deriving DecidableEq, Repr

/-- Embedding of `path.basename`: last non-empty `/`-separated component. -/
def basename (p : String) : String :=
  ((p.splitOn "/").filter (· ≠ "")).getLastD p

/-- Embedding of `SessionManager.generateSessionName`. -/
def generateSessionName (st : MState) (workingDirectory : String) : String :=
  let dirName := basename workingDirectory
  let count :=
    ((st.sessions.map (·.2)).filter
      (fun s => s.session.workingDirectory == workingDirectory)).length
  if count > 0 then dirName ++ " (" ++ toString (count + 1) ++ ")" else dirName

/-- Embedding of `SessionManager.createSession`.  `fs` models the existing
filesystem paths, `cwd` feeds `path.resolve` inside the guard, `now` is
`Date.now()` and `newId` the generated session id.  Failures are the
thrown errors. -/
def createSession (cfg : SessionConfig) (fs : List String) (cwd : String)
    (now : Nat) (newId : String) (st : MState)
    (workingDirectory name : Option String) :
    Except String (Session × MState) :=
  let targetDir := workingDirectory.getD cfg.defaultDirectory
  if ¬ Guard.isDirectoryAllowed cwd cfg.allowedDirectories targetDir then
    .error ("目录不在允许范围内: " ++ targetDir)
  else if ¬ fs.contains targetDir then
    .error ("目录不存在: " ++ targetDir)
  else
    let sessionName := name.getD (generateSessionName st targetDir)
    let session : Session :=
      { id := newId, name := sessionName, workingDirectory := targetDir
        createdAt := now, lastActiveAt := now, messageCount := 0 }
    let state : SessionState :=
      { session := session, isFirstMessage := true
        claudeProcessRunning := false }
    let sessions' := mapSet st.sessions newId state
    let active' :=
      if mapSize sessions' = 1 then some newId else st.activeSessionId
    .ok (session, { sessions := sessions', activeSessionId := active' })

end RelaySession

namespace BridgeSession

/-! ## src/session/manager.ts: SessionManager (Bridge variant) -/

/-- Session status (`SessionStatus`). -/
inductive SessionStatus where
  | idle
  | busy
  | stopped
deriving DecidableEq, Repr

/-- Session record (`Session` in src/session/types.ts); the owned
`ClaudeProcess` handle is outside the state claims touch and is omitted. -/
structure Session where
  id : Nat
  name : String
  workingDirectory : String
  status : SessionStatus
  createdAt : Nat
  lastActiveAt : Nat
deriving DecidableEq, Repr

/-- Bridge-variant session configuration (`SessionConfig` in
src/session/types.ts): a cap and a default directory, no allow-list. -/
structure SessionConfig where
  maxSessions : Nat
  defaultWorkingDirectory : String
deriving DecidableEq, Repr

/-- Creation options (`CreateSessionOptions`). -/
structure CreateSessionOptions where
  name : Option String := none
  workingDirectory : Option String := none
deriving DecidableEq, Repr

/-- Manager state: session map, active id, id counter. -/
structure MState where
  sessions : JMap Nat Session
  activeSessionId : Option Nat
  nextId : Nat
deriving DecidableEq, Repr

/-- Embedding of `SessionManager.create`: only the cap is checked; the
session is stored with status `idle` and the first session becomes
active. -/
def create (cfg : SessionConfig) (now : Nat) (st : MState)
    (options : CreateSessionOptions) : Except String (Session × MState) :=
  if cfg.maxSessions ≤ mapSize st.sessions then
    .error ("已达到最大会话数限制 (" ++ toString cfg.maxSessions ++ ")")
  else
    let id := st.nextId
    let name := options.name.getD ("会话" ++ toString id)
    let workingDirectory :=
      options.workingDirectory.getD cfg.defaultWorkingDirectory
    let session : Session :=
      { id := id, name := name, workingDirectory := workingDirectory
        status := .idle, createdAt := now, lastActiveAt := now }
    let active' :=
      if st.activeSessionId = none then some id else st.activeSessionId
    .ok (session,
      { sessions := mapSet st.sessions id session
        activeSessionId := active', nextId := id + 1 })

/-- Argument of `switch` / `findSession` (`number | string` in TS). -/
inductive IdOrName where
  | byNum (n : Nat)
  | byStr (s : String)
deriving DecidableEq, Repr

/-- Model of JavaScript `parseInt(s, 10)`: skip leading whitespace, read
an optional sign and then leading decimal digits; `NaN` (here `none`) when
no digit follows. -/
def jsParseInt (s : String) : Option Int :=
  let l := s.toList.dropWhile (fun c =>
    c = ' ' ∨ c = '\t' ∨ c = '\n' ∨ c = '\r')
  let (neg, l) :=
    match l with
    | '-' :: rest => (true, rest)
    | '+' :: rest => (false, rest)
    | _ => (false, l)
  let digits := l.takeWhile Char.isDigit
  if digits.isEmpty then none
  else
    let v : Nat := digits.foldl (fun acc c => acc * 10 + (c.toNat - '0'.toNat)) 0
    some (if neg then -(v : Int) else (v : Int))

/-- Embedding of the exact-name scan at the end of
`SessionManager.findSession`. -/
def findByExactName (st : MState) (s : String) : Option Session :=
  (st.sessions.map (·.2)).find? (fun sess => sess.name == s)

/-- Embedding of `SessionManager.findSession`: a numeric argument is an id
lookup; a string argument is first parsed with `parseInt` and, when that
yields a number, resolved only as an id (`sessions.get(numId) || null`);
the exact-name scan runs only when `parseInt` returns `NaN`. -/
def findSession (st : MState) (idOrName : IdOrName) : Option Session :=
  match idOrName with
  | .byNum n => mapGet st.sessions n
  | .byStr s =>
      match jsParseInt s with
      | some i =>
          match i with
          | .ofNat n => mapGet st.sessions n
          | .negSucc _ => none
      | none => findByExactName st s

/-- Embedding of `SessionManager.switch`: resolve via `findSession`, then
update the active id and the `lastActiveAt` stamp of the target session. -/
def switchTo (now : Nat) (st : MState) (idOrName : IdOrName) :
    Except String (Session × MState) :=
  match findSession st idOrName with
  | none => .error "会话不存在"
  | some session =>
      let updated := { session with lastActiveAt := now }
      .ok (updated,
        { st with sessions := mapSet st.sessions session.id updated
                  activeSessionId := some session.id })

end BridgeSession

namespace TextUtil

/-! ## src/utils/text.ts: splitText, and the chunked send loop of
src/telegram/bot.ts: TelegramBotClient.sendMessage

JavaScript strings are embedded as `List Char`. -/

/-- Model of `str.lastIndexOf(c, pos)`: the largest index `i ≤ pos` whose
character is `c`, or `none` for `-1`. -/
def jsLastIndexOf (l : List Char) (c : Char) (pos : Nat) : Option Nat :=
  let window := l.take (pos + 1)
  match window.reverse.findIdx? (· == c) with
  | none => none
  | some j => some (window.length - 1 - j)

/-- Whitespace removed by `trimStart()` (the code points the repository
can produce). -/
def isJsWhitespace (c : Char) : Bool :=
  c == ' ' || c == '\n' || c == '\t' || c == '\r'

/-- Split-point selection inside the `splitText` loop.  The float
comparison `splitIndex < maxLength / 2` is rendered exactly as
`2 * i < maxLength`. -/
def pickSplit (remaining : List Char) (maxLength : Nat) : Nat :=
  let nl :=
    match jsLastIndexOf remaining '\n' maxLength with
    | some i => if 2 * i < maxLength then none else some i
    | none => none
  match nl with
  | some i => i
  | none =>
      match jsLastIndexOf remaining ' ' maxLength with
      | some i => if 2 * i < maxLength then maxLength else i
      | none => maxLength

/-- The `while (remaining.length > 0)` loop of `splitText`, with explicit
fuel; the fuel never runs out when `0 < maxLength` (each iteration
shortens `remaining`). -/
def splitTextGo (maxLength : Nat) : Nat → List Char → List (List Char)
  | 0, remaining => [remaining]
  | _ + 1, [] => []
  | fuel + 1, remaining@(_ :: _) =>
      if remaining.length ≤ maxLength then [remaining]
      else
        let splitIndex := pickSplit remaining maxLength
        let chunk := remaining.take splitIndex
        let rest := (remaining.drop splitIndex).dropWhile isJsWhitespace
        chunk :: splitTextGo maxLength fuel rest

/-- Embedding of `splitText`. -/
def splitText (text : List Char) (maxLength : Nat) : List (List Char) :=
  if text.length ≤ maxLength then [text]
  else splitTextGo maxLength (text.length + 1) text

/-- Telegram channel bound (`TELEGRAM.MAX_MESSAGE_LENGTH`). -/
def MAX_MESSAGE_LENGTH : Nat := 4000

/-- The multipart marker `[i/N]\n` prepended to chunk `i` of `N`. -/
def chunkTag (i n : Nat) : List Char :=
  ('[' :: (Nat.repr i).toList) ++ ('/' :: (Nat.repr n).toList) ++ [']', '\n']

/-- The `for` loop of `TelegramBotClient.sendMessage`: prefix each chunk
with `[i/N]\n` when there is more than one chunk. -/
def frameLoop (n : Nat) : Nat → List (List Char) → List (List Char)
  | _, [] => []
  | i, c :: rest =>
      (if n > 1 then chunkTag (i + 1) n ++ c else c) :: frameLoop n (i + 1) rest

/-- The frames `sendMessage` hands to the Telegram API for a given text
(the empty text sends nothing). -/
def sendFrames (text : List Char) (maxLength : Nat) : List (List Char) :=
  if text.isEmpty then []
  else
    let chunks := splitText text maxLength
    frameLoop chunks.length 0 chunks

end TextUtil

namespace TelegramBot

/-! ## src/telegram/bot.ts: the password auth gate

The side effects of the `message` handler are collected as a list of
`BotOutput` values: texts sent back to the chat and the `message` /
`command` events emitted towards the Bridge. -/

/-- Observable effects of handling one inbound Telegram message. -/
inductive BotOutput where
  | sendText (chatId : Nat) (text : String)
  | messageEvent (chatId : Nat) (text : String)
  | commandEvent (chatId : Nat) (command : String) (args : String)
deriving DecidableEq, Repr

/-- Auth-gate state: the `authenticatedChats` and `pendingAuth` sets. -/
structure BotState where
  authenticatedChats : List Nat
  pendingAuth : List Nat
deriving DecidableEq, Repr

/-- JavaScript `Set.add`: no duplicate entries. -/
def setAdd (l : List Nat) (x : Nat) : List Nat :=
  if l.contains x then l else l ++ [x]

/-- JavaScript `Set.delete`. -/
def setDel (l : List Nat) (x : Nat) : List Nat :=
  l.filter (· ≠ x)

/-- Command names with dedicated cases in `handleCommand` besides
`start`. -/
def knownCommands : List String :=
  ["new", "switch", "list", "close", "rename",
   "session", "status", "stop", "restart"]

/-- Embedding of `TelegramBotClient.handleCommand`. -/
def handleCommand (st : BotState) (chatId : Nat) (command args : String) :
    BotState × List BotOutput :=
  if command == "start" then
    ({ st with pendingAuth := setAdd st.pendingAuth chatId },
     [.sendText chatId "帮助信息，请先输入密码进行验证。"])
  else if knownCommands.contains command then
    if ¬ st.authenticatedChats.contains chatId then
      ({ st with pendingAuth := setAdd st.pendingAuth chatId },
       [.sendText chatId "🔐 请先输入密码验证"])
    else
      (st, [.commandEvent chatId command args])
  else
    if st.authenticatedChats.contains chatId then
      (st, [.commandEvent chatId command args])
    else
      ({ st with pendingAuth := setAdd st.pendingAuth chatId },
       [.sendText chatId "🔐 请先输入密码验证"])

/-- Embedding of `TelegramBotClient.handleAuth`. -/
def handleAuth (password : String) (st : BotState) (chatId : Nat)
    (text : String) : BotState × List BotOutput :=
  if ¬ st.pendingAuth.contains chatId then
    ({ st with pendingAuth := setAdd st.pendingAuth chatId },
     [.sendText chatId "🔐 请输入访问密码："])
  else if text == password then
    ({ authenticatedChats := setAdd st.authenticatedChats chatId
       pendingAuth := setDel st.pendingAuth chatId },
     [.sendText chatId "✅ 验证成功！现在可以开始使用了。"])
  else
    (st, [.sendText chatId "❌ 密码错误，请重试。"])

/-- Embedding of the `message` handler installed by `setupHandlers`:
commands are routed to `handleCommand`, unauthenticated chats to
`handleAuth`, and authenticated non-command text is forwarded as a
`message` event. -/
def onMessage (password : String) (st : BotState) (chatId : Nat)
    (text : String) : BotState × List BotOutput :=
  if Guard.strStartsWith text "/" then
    let parts := (text.drop 1).splitOn " "
    let command := parts.headD ""
    let args := String.intercalate " " parts.tail
    handleCommand st chatId command args
  else if ¬ st.authenticatedChats.contains chatId then
    handleAuth password st chatId text
  else
    (st, [.messageEvent chatId text])

/-- Run of the bot over a list of inbound `(chatId, text)` messages,
accumulating the emitted outputs. -/
def run (password : String) (st : BotState) :
    List (Nat × String) → BotState × List BotOutput
  | [] => (st, [])
  | (chatId, text) :: rest =>
      let (st', out) := onMessage password st chatId text
      let (st'', outs) := run password st' rest
      (st'', out ++ outs)

end TelegramBot

namespace Bridge

/-! ## src/bridge/index.ts: the message queue

State of the Bridge together with the busy flag of its `ClaudeProcess`;
`dispatched` records the texts handed to `claude.sendMessage` in order. -/

/-- Bridge state: Claude busy/running flags, the FIFO `messageQueue`, and
the dispatch log. -/
structure BridgeState where
  busy : Bool
  running : Bool
  queue : List String
  dispatched : List String
deriving DecidableEq, Repr

/-- Embedding of `Bridge.sendToClaude`: dispatches when the process runs
(`ClaudeProcess.sendMessage` sets the busy flag). -/
def sendToClaude (s : BridgeState) (text : String) : BridgeState :=
  if ¬ s.running then s
  else { s with busy := true, dispatched := s.dispatched ++ [text] }

/-- Embedding of the `telegram.on('message')` handler: while busy the
text is pushed onto the FIFO, otherwise it is sent directly. -/
def recvMessage (s : BridgeState) (text : String) : BridgeState :=
  if s.busy then { s with queue := s.queue ++ [text] }
  else sendToClaude s text

/-- Embedding of `Bridge.processQueue`: pop the head of the queue and send
it; a failing send (process not running) reports an error and recurses on
the rest. -/
def processQueue (s : BridgeState) : BridgeState :=
  match hq : s.queue with
  | [] => s
  | m :: rest =>
      if s.running then
        { s with busy := true, queue := rest, dispatched := s.dispatched ++ [m] }
      else
        have : rest.length < s.queue.length := by simp [hq]
        processQueue { s with queue := rest }
termination_by s.queue.length

/-- Embedding of the `done` event path: `ClaudeProcess` clears its busy
flag on the `result` line, emits `done`, and the Bridge drains the queue. -/
def onDone (s : BridgeState) : BridgeState :=
  processQueue { s with busy := false }

/-- Events driving the Bridge: an operator message or a `done` event. -/
inductive BridgeEvent where
  | recv (text : String)
  | done
deriving DecidableEq, Repr

/-- Run of the Bridge over a list of events. -/
def runEvents (s : BridgeState) : List BridgeEvent → BridgeState
  | [] => s
  | .recv t :: rest => runEvents (recvMessage s t) rest
  | .done :: rest => runEvents (onDone s) rest

end Bridge

/-! # Theorems -/

/-- Characters kept by the code normalisation are unchanged by
`Char.toUpper` (they are uppercase letters or digits). -/
theorem toUpper_of_isCodeChar (c : Char) (h : Pairing.isCodeChar c = true) :
    Char.toUpper c = c := by
  unfold Char.toUpper
  simp only [Pairing.isCodeChar, Bool.or_eq_true, Bool.and_eq_true,
    decide_eq_true_eq] at h
  have hn : ¬ (c.toNat ≥ 97 ∧ c.toNat ≤ 122) := by
    rcases h with ⟨_, h2⟩ | ⟨_, h2⟩
    · rw [Char.le_def] at h2
      have h3 : c.toNat ≤ 90 := h2
      intro hc
      omega
    · rw [Char.le_def] at h2
      have h3 : c.toNat ≤ 57 := h2
      intro hc
      omega
  simp [hn]

/-- The code normalisation of `confirmPairCode` is idempotent. -/
theorem normalizeCode_idem (s : String) :
    Pairing.normalizeCode (Pairing.normalizeCode s) = Pairing.normalizeCode s := by
  unfold Pairing.normalizeCode
  congr 1
  have hML :
      (String.mk ((s.toList.map Char.toUpper).filter Pairing.isCodeChar)).toList
        = (s.toList.map Char.toUpper).filter Pairing.isCodeChar := rfl
  rw [hML]
  have hmap :
      ((s.toList.map Char.toUpper).filter Pairing.isCodeChar).map Char.toUpper
        = (s.toList.map Char.toUpper).filter Pairing.isCodeChar := by
    have hid : ∀ c ∈ (s.toList.map Char.toUpper).filter Pairing.isCodeChar,
        Char.toUpper c = c :=
      fun c hc => toUpper_of_isCodeChar c (List.of_mem_filter hc)
    calc ((s.toList.map Char.toUpper).filter Pairing.isCodeChar).map Char.toUpper
        = ((s.toList.map Char.toUpper).filter Pairing.isCodeChar).map id :=
          List.map_congr_left hid
      _ = (s.toList.map Char.toUpper).filter Pairing.isCodeChar := List.map_id _
  rw [hmap]
  exact List.filter_eq_self.mpr (fun a ha => List.of_mem_filter ha)

/-- Lookup of a freshly set key in the map model. -/
theorem mapGet_mapSet_self [BEq κ] [LawfulBEq κ] (m : JMap κ α) (k : κ) (v : α) :
    mapGet (mapSet m k v) k = some v := by
  unfold mapGet mapSet
  by_cases h : (m.any (fun e => e.1 == k)) = true
  · simp only [if_pos h]
    induction m with
    | nil => simp at h
    | cons e rest ih =>
        by_cases he : (e.1 == k) = true
        · rw [List.map_cons]
          have hge : (if (e.1 == k) = true then (k, v) else e) = (k, v) := by
            rw [he]; simp
          rw [hge, List.find?_cons_of_pos _ (by simp)]
          rfl
        · have he' : (e.1 == k) = false := by simpa using he
          simp only [List.any_cons, he', Bool.false_or] at h
          rw [List.map_cons]
          have hge : (if (e.1 == k) = true then (k, v) else e) = e := by
            rw [he']; simp
          rw [hge, List.find?_cons_of_neg _ (by simp [he']), ih h]
  · simp only [if_neg h]
    have hf : m.find? (fun e => e.1 == k) = none := by
      rw [List.find?_eq_none]
      intro x hx hc
      exact h (List.any_eq_true.mpr ⟨x, hx, hc⟩)
    rw [List.find?_append, hf]
    simp [List.find?]

/-- C2.  Pair-confirm failure modes, for the cloud `PairingService` and
the embedded server alike: an unknown (normalised) code yields
`Invalid pair code` with the store untouched; an expired pending pair is
deleted and yields `Pair code expired` with clients and rooms untouched;
a same-role confirmer yields `Cannot pair same device types` with the
store (and in particular the pending pair) untouched; and no failure ever
creates a Room. -/
theorem claim_C2_confirm_failure_modes
    (uuid : String) (now : Nat) (store : ConnectionStore)
    (code deviceId deviceName : String) (platform : Platform) :
    (mapGet store.pendingPairs (Pairing.formatCode (Pairing.normalizeCode code)) = none →
      Pairing.confirmPairCode uuid now store code deviceId deviceName platform
        = ({ success := false, pairId := none, error := some "Invalid pair code" }, store)) ∧
    (∀ pp, mapGet store.pendingPairs (Pairing.formatCode (Pairing.normalizeCode code)) = some pp →
      pp.expiresAt < now →
      Pairing.confirmPairCode uuid now store code deviceId deviceName platform
        = ({ success := false, pairId := none, error := some "Pair code expired" },
           { store with
             pendingPairs :=
               mapDel store.pendingPairs
                 (Pairing.formatCode (Pairing.normalizeCode code)) })) ∧
    (∀ pp, mapGet store.pendingPairs (Pairing.formatCode (Pairing.normalizeCode code)) = some pp →
      now ≤ pp.expiresAt → pp.platform = platform →
      Pairing.confirmPairCode uuid now store code deviceId deviceName platform
        = ({ success := false, pairId := none,
             error := some "Cannot pair same device types" }, store)) ∧
    ((Pairing.confirmPairCode uuid now store code deviceId deviceName platform).1.success = false →
      (Pairing.confirmPairCode uuid now store code deviceId deviceName platform).2.rooms
        = store.rooms) ∧
    (mapGet store.pendingPairs (Pairing.normalizeCode code) = none →
      Embedded.confirmPairCode uuid now store code deviceId deviceName platform
        = ({ success := false, pairId := none, error := some "Invalid pair code" }, store)) ∧
    (∀ pp, mapGet store.pendingPairs (Pairing.normalizeCode code) = some pp →
      pp.expiresAt < now →
      Embedded.confirmPairCode uuid now store code deviceId deviceName platform
        = ({ success := false, pairId := none, error := some "Pair code expired" },
           { store with
             pendingPairs :=
               mapDel store.pendingPairs (Pairing.normalizeCode code) })) ∧
    (∀ pp, mapGet store.pendingPairs (Pairing.normalizeCode code) = some pp →
      now ≤ pp.expiresAt → pp.platform = platform →
      Embedded.confirmPairCode uuid now store code deviceId deviceName platform
        = ({ success := false, pairId := none,
             error := some "Cannot pair same device types" }, store)) ∧
    ((Embedded.confirmPairCode uuid now store code deviceId deviceName platform).1.success = false →
      (Embedded.confirmPairCode uuid now store code deviceId deviceName platform).2.rooms
        = store.rooms) := by
  unfold Pairing.confirmPairCode Embedded.confirmPairCode
  refine ⟨?_, ?_, ?_, ?_, ?_, ?_, ?_, ?_⟩
  · intro h
    simp [h]
  · intro pp h hexp
    simp [h, hexp]
  · intro pp h hexp hplat
    have hng : ¬ now > pp.expiresAt := by omega
    simp [h, hng, hplat]
  · match hm : mapGet store.pendingPairs (Pairing.formatCode (Pairing.normalizeCode code)) with
    | none => simp [hm]
    | some pp =>
        by_cases hexp : now > pp.expiresAt
        · simp [hm, hexp]
        · by_cases hplat : pp.platform = platform
          · simp [hm, hexp, hplat]
          · simp [hm, hexp, hplat]
  · intro h
    simp [h]
  · intro pp h hexp
    simp [h, hexp]
  · intro pp h hexp hplat
    have hng : ¬ now > pp.expiresAt := by omega
    simp [h, hng, hplat]
  · match hm : mapGet store.pendingPairs (Pairing.normalizeCode code) with
    | none => simp [hm]
    | some pp =>
        by_cases hexp : now > pp.expiresAt
        · simp [hm, hexp]
        · by_cases hplat : pp.platform = platform
          · simp [hm, hexp, hplat]
          · simp [hm, hexp, hplat]

/-- Witness for C2: confirming an unknown code against the empty store
fails with `Invalid pair code` and leaves the store unchanged. -/
theorem claim_C2_confirm_failure_modes_witness :
    Pairing.confirmPairCode "u" 0 ⟨[], [], []⟩ "XXXX-XXXX" "d" "n" .web
      = ({ success := false, pairId := none, error := some "Invalid pair code" },
         (⟨[], [], []⟩ : ConnectionStore)) :=
  (claim_C2_confirm_failure_modes "u" 0 ⟨[], [], []⟩ "XXXX-XXXX" "d" "n" .web).1 rfl

/-- C4.  Code normalisation law: confirming a code is the same as
confirming its normalised form, and two codes with the same normalised
form (codes differing only in separators or alphabetic case) confirm
identically, in both the cloud and the embedded variant. -/
theorem claim_C4_confirm_normalisation
    (uuid : String) (now : Nat) (store : ConnectionStore)
    (code code' deviceId deviceName : String) (platform : Platform) :
    (Pairing.confirmPairCode uuid now store (Pairing.normalizeCode code)
        deviceId deviceName platform
      = Pairing.confirmPairCode uuid now store code deviceId deviceName platform) ∧
    (Embedded.confirmPairCode uuid now store (Pairing.normalizeCode code)
        deviceId deviceName platform
      = Embedded.confirmPairCode uuid now store code deviceId deviceName platform) ∧
    (Pairing.normalizeCode code = Pairing.normalizeCode code' →
      Pairing.confirmPairCode uuid now store code deviceId deviceName platform
        = Pairing.confirmPairCode uuid now store code' deviceId deviceName platform ∧
      Embedded.confirmPairCode uuid now store code deviceId deviceName platform
        = Embedded.confirmPairCode uuid now store code' deviceId deviceName platform) := by
  refine ⟨?_, ?_, fun hnorm => ⟨?_, ?_⟩⟩
  · unfold Pairing.confirmPairCode
    rw [normalizeCode_idem]
  · unfold Embedded.confirmPairCode
    rw [normalizeCode_idem]
  · unfold Pairing.confirmPairCode
    rw [hnorm]
  · unfold Embedded.confirmPairCode
    rw [hnorm]

/-- Witness for C4: `abcd-efgh` and `ABCDEFGH` have the same normalised
form, so they confirm identically against any store; instantiated at the
empty store. -/
theorem claim_C4_confirm_normalisation_witness :
    Pairing.normalizeCode "abcd-efgh" = Pairing.normalizeCode "ABCDEFGH" ∧
    Pairing.confirmPairCode "u" 0 ⟨[], [], []⟩ "abcd-efgh" "d" "n" .web
      = Pairing.confirmPairCode "u" 0 ⟨[], [], []⟩ "ABCDEFGH" "d" "n" .web :=
  ⟨by decide,
   ((claim_C4_confirm_normalisation "u" 0 ⟨[], [], []⟩ "abcd-efgh" "ABCDEFGH"
      "d" "n" .web).2.2 (by decide)).1⟩

/-- C3 (code bug).  `requestPairCode` draws a fresh code without checking
it against live pending pairs: with the random oracle returning index 0
eight times the generated code is `AAAA-AAAA`, which overwrites the live
pending pair that device `B` holds under the same code, even though no
pending pair of the requesting device `A` existed.  The first conjuncts
record that the prior pair is live and belongs to `B`; the last records
that after the request the only pending pair under that code belongs to
`A`, so the store no longer holds a pending pair for `B`. -/
theorem claim_C3_request_code_collision_bug :
    (Pairing.generatePairCode (fun _ => (0 : Fin 32)) = "AAAA-AAAA") ∧
    (let pairB : PendingPair :=
      { pairCode := "AAAA-AAAA", deviceId := "B", deviceName := "phoneB"
        platform := .desktop, expiresAt := 1000000 }
     let store0 : ConnectionStore := ⟨[], [("AAAA-AAAA", pairB)], []⟩
     let out := Pairing.requestPairCode (fun _ => (0 : Fin 32)) 0 store0
       "A" "deskA" .desktop
     mapGet store0.pendingPairs "AAAA-AAAA" = some pairB ∧
     (0 : Nat) < pairB.expiresAt ∧
     out.1.1 = "AAAA-AAAA" ∧
     out.2.pendingPairs.map (fun e => (e.1, e.2.deviceId)) = [("AAAA-AAAA", "A")]) := by
  constructor
  · decide
  · refine ⟨by decide, by decide, by decide, by decide⟩

/-- Counterexample for C1.  In the cloud relay, a `message` frame from an
authenticated, room-bound sender whose peer connection is absent is not
dropped silently: the hub sends an `error` frame (`Paired device
offline`) back to the sender. -/
theorem claim_C1_counterexample :
    (let client : ConnectedClient :=
      { ws := 1, deviceId := "D", deviceName := "desk", platform := .desktop
        pairId := some "r", lastPing := 0 }
     let room : Room :=
      { pairId := "r", desktopDeviceId := some "D", webDeviceId := some "P"
        createdAt := 0 }
     let store : ConnectionStore := ⟨[("D", client)], [], [("r", room)]⟩
     findClientByWs store 1 = some client ∧
     client.pairId = some "r" ∧
     mapGet store.clients "P" = none ∧
     RelayServer.handleRelayMessage store 1 (.message ⟨"m", "hi", 0, "1"⟩)
       = [(1, .error "Paired device offline")]) := by
  refine ⟨by decide, by decide, by decide, by decide⟩

/-- C1 as amended.  For a frame from an authenticated, room-bound sender
whose peer device resolves: when the peer connection is present all three
relay paths forward the frame unchanged to the peer socket; when it is
absent, `session_*` frames (cloud) and all frames of the embedded variant
are dropped silently, but the cloud `message` relay replies to the sender
with an `error` frame `Paired device offline`. -/
theorem claim_C1_relay_forwarding
    (store : ConnectionStore) (ws : Nat) (frame : WSFrame)
    (client : ConnectedClient) (peerId : String)
    (hc : findClientByWs store ws = some client)
    (hp : ∃ pid, client.pairId = some pid)
    (hg : Pairing.getPairedDevice store client.deviceId = some peerId) :
    (∀ pc, mapGet store.clients peerId = some pc →
      RelayServer.handleRelayMessage store ws frame = [(pc.ws, frame)] ∧
      RelayServer.handleRelaySessionMessage store ws frame = [(pc.ws, frame)] ∧
      Embedded.relayMessage store ws frame = [(pc.ws, frame)]) ∧
    (mapGet store.clients peerId = none →
      RelayServer.handleRelaySessionMessage store ws frame = [] ∧
      Embedded.relayMessage store ws frame = [] ∧
      RelayServer.handleRelayMessage store ws frame
        = [(ws, .error "Paired device offline")]) := by
  obtain ⟨pid, hpid⟩ := hp
  unfold RelayServer.handleRelayMessage RelayServer.handleRelaySessionMessage
    Embedded.relayMessage Embedded.getPairedDevice
  rw [hc]
  constructor
  · intro pc hpc
    simp [hpid, hg, hpc]
  · intro hpc
    simp [hpid, hg, hpc]

/-- Witness for C1 as amended: with both peers of the room connected, the
`message` frame is forwarded unchanged to the peer socket. -/
theorem claim_C1_relay_forwarding_witness :
    RelayServer.handleRelayMessage
      ⟨[("D", { ws := 1, deviceId := "D", deviceName := "desk",
                platform := .desktop, pairId := some "r", lastPing := 0 }),
        ("P", { ws := 2, deviceId := "P", deviceName := "phone",
                platform := .web, pairId := some "r", lastPing := 0 })], [],
       [("r", { pairId := "r", desktopDeviceId := some "D",
                webDeviceId := some "P", createdAt := 0 })]⟩
      1 (.message ⟨"m", "hi", 0, "1"⟩)
      = [(2, .message ⟨"m", "hi", 0, "1"⟩)] :=
  ((claim_C1_relay_forwarding _ 1 (.message ⟨"m", "hi", 0, "1"⟩)
      { ws := 1, deviceId := "D", deviceName := "desk", platform := .desktop
        pairId := some "r", lastPing := 0 }
      "P" (by decide) ⟨"r", rfl⟩ (by decide)).1
    { ws := 2, deviceId := "P", deviceName := "phone", platform := .web
      pairId := some "r", lastPing := 0 }
    (by decide)).1

/-- C6.  Directory-containment law: the guard accepts a candidate iff
some allow-list entry canonicalises to the same path or to an ancestor
followed by the path separator; in particular `/home/u/projects/x` is
accepted and `/home/u/projects-evil` rejected for the allow-list
`["/home/u/projects"]`. -/
theorem claim_C6_directory_guard (cwd : String) (A : List String) (p : String) :
    (Guard.isDirectoryAllowed cwd A p = true ↔
      ∃ a ∈ A, Guard.resolvePath cwd p = Guard.resolvePath cwd a ∨
        Guard.strStartsWith (Guard.resolvePath cwd p)
          (Guard.resolvePath cwd a ++ "/") = true) ∧
    Guard.isDirectoryAllowed "/" ["/home/u/projects"] "/home/u/projects/x" = true ∧
    Guard.isDirectoryAllowed "/" ["/home/u/projects"] "/home/u/projects-evil" = false ∧
    Guard.isDirectoryAllowed "/" ["/home/u/projects"] "/etc" = false := by
  refine ⟨?_, by decide, by decide, by decide⟩
  unfold Guard.isDirectoryAllowed
  simp only [List.any_eq_true, Bool.or_eq_true, beq_iff_eq]

/-- Counterexample for C5.  The Bridge-variant `SessionManager.create`
checks only the session cap: with a directory that fails the
directory-scope guard for the configured allow-list and exists on no
filesystem, creation still succeeds and adds the session. -/
theorem claim_C5_counterexample :
    Guard.isDirectoryAllowed "/" ["/home/u/projects"] "/etc" = false ∧
    ([] : List String).contains "/etc" = false ∧
    BridgeSession.create ⟨10, "/home/u/projects"⟩ 0 ⟨[], none, 1⟩
        ⟨none, some "/etc"⟩
      = .ok ({ id := 1, name := "会话1", workingDirectory := "/etc",
               status := .idle, createdAt := 0, lastActiveAt := 0 },
             ⟨[(1, { id := 1, name := "会话1", workingDirectory := "/etc",
                     status := .idle, createdAt := 0, lastActiveAt := 0 })],
              some 1, 2⟩) := by
  refine ⟨by decide, by decide, by decide⟩

/-- C5 as amended.  The two create operations check complementary
subsets of the claimed conditions: the Bridge-variant `create` fails iff
the cap is reached (no directory checks), and on success stores the new
session with status `idle`; the relay-variant `createSession` fails iff
the target directory fails the directory-scope guard or does not exist
(no cap check), and on success stores the new session under the fresh
id. -/
theorem claim_C5_create_checks
    (cfg : BridgeSession.SessionConfig) (now : Nat) (st : BridgeSession.MState)
    (options : BridgeSession.CreateSessionOptions)
    (rcfg : RelaySession.SessionConfig) (fs : List String) (cwd : String)
    (rnow : Nat) (newId : String) (rst : RelaySession.MState)
    (wd nm : Option String) :
    ((∃ e, BridgeSession.create cfg now st options = .error e) ↔
      cfg.maxSessions ≤ mapSize st.sessions) ∧
    (∀ s st', BridgeSession.create cfg now st options = .ok (s, st') →
      s.status = .idle ∧ mapGet st'.sessions s.id = some s) ∧
    ((∃ e, RelaySession.createSession rcfg fs cwd rnow newId rst wd nm
        = .error e) ↔
      (Guard.isDirectoryAllowed cwd rcfg.allowedDirectories
          (wd.getD rcfg.defaultDirectory) = false ∨
        fs.contains (wd.getD rcfg.defaultDirectory) = false)) ∧
    (∀ s st', RelaySession.createSession rcfg fs cwd rnow newId rst wd nm
        = .ok (s, st') →
      mapGet st'.sessions newId
        = some { session := s, isFirstMessage := true
                 claudeProcessRunning := false } ∧
      s.workingDirectory = wd.getD rcfg.defaultDirectory) := by
  refine ⟨?_, ?_, ?_, ?_⟩
  · unfold BridgeSession.create
    by_cases h : cfg.maxSessions ≤ mapSize st.sessions
    · simp [h]
    · simp [h]
  · intro s st' hok
    unfold BridgeSession.create at hok
    by_cases h : cfg.maxSessions ≤ mapSize st.sessions
    · simp [h] at hok
    · simp only [if_neg h, Except.ok.injEq, Prod.mk.injEq] at hok
      obtain ⟨hs, hst⟩ := hok
      subst hs
      subst hst
      exact ⟨rfl, mapGet_mapSet_self _ _ _⟩
  · unfold RelaySession.createSession
    by_cases hg : Guard.isDirectoryAllowed cwd rcfg.allowedDirectories
        (wd.getD rcfg.defaultDirectory) = true
    · by_cases hf : (wd.getD rcfg.defaultDirectory) ∈ fs
      · simp [hg, hf]
      · simp [hg, hf]
    · simp at hg
      simp [hg]
  · intro s st' hok
    unfold RelaySession.createSession at hok
    by_cases hg : Guard.isDirectoryAllowed cwd rcfg.allowedDirectories
        (wd.getD rcfg.defaultDirectory) = true
    · by_cases hf : (wd.getD rcfg.defaultDirectory) ∈ fs
      · simp [hg, hf, Prod.ext_iff] at hok
        obtain ⟨hs, hst⟩ := hok
        subst hs
        subst hst
        exact ⟨mapGet_mapSet_self _ _ _, rfl⟩
      · simp [hg, hf] at hok
    · simp at hg
      simp [hg] at hok

/-- Witness for C5 as amended: a concrete successful Bridge-variant
creation stores an idle session under its id. -/
theorem claim_C5_create_checks_witness :
    ({ id := 1, name := "n", workingDirectory := "/d", status := .idle,
       createdAt := 0, lastActiveAt := 0 } : BridgeSession.Session).status
      = .idle ∧
    mapGet
      (⟨[(1, { id := 1, name := "n", workingDirectory := "/d",
               status := .idle, createdAt := 0,
               lastActiveAt := 0 })], some 1, 2⟩ :
        BridgeSession.MState).sessions
      ({ id := 1, name := "n", workingDirectory := "/d", status := .idle,
         createdAt := 0, lastActiveAt := 0 } : BridgeSession.Session).id
      = some { id := 1, name := "n", workingDirectory := "/d",
               status := .idle, createdAt := 0, lastActiveAt := 0 } :=
  (claim_C5_create_checks ⟨10, "/d"⟩ 0 ⟨[], none, 1⟩ ⟨some "n", none⟩
      ⟨["/d"], "/d"⟩ ["/d"] "/" 0 "s1" ⟨[], none⟩ none none).2.1
    _ _ (by decide)

/-- Counterexample for C9.  With a single session whose exact name is
`2abc`, switching by that name fails: `parseInt` reads the leading digit,
the id lookup for 2 finds nothing, and the exact-name scan (which would
find the session) is never reached — so switch fails although a
resolution finds a session. -/
theorem claim_C9_counterexample :
    (let sess : BridgeSession.Session :=
      { id := 1, name := "2abc", workingDirectory := "/d", status := .idle
        createdAt := 0, lastActiveAt := 0 }
     let st : BridgeSession.MState := ⟨[(1, sess)], some 1, 2⟩
     BridgeSession.jsParseInt "2abc" = some 2 ∧
     BridgeSession.findByExactName st "2abc" = some sess ∧
     BridgeSession.findSession st (.byStr "2abc") = none ∧
     BridgeSession.switchTo 5 st (.byStr "2abc") = .error "会话不存在") := by
  refine ⟨by decide, by decide, by decide, by decide⟩

/-- C9 as amended.  A string argument is resolved as a numeric id
whenever `parseInt` yields a number, with no fallback to the exact-name
scan; the exact-name scan runs only when `parseInt` yields `NaN`.  Switch
fails iff this resolution finds nothing, and on success updates the
active id and the `lastActiveAt` stamp of the resolved session. -/
theorem claim_C9_switch_resolution (now : Nat) (st : BridgeSession.MState)
    (arg : BridgeSession.IdOrName) :
    (∀ s n, BridgeSession.jsParseInt s = some (Int.ofNat n) →
      BridgeSession.findSession st (.byStr s) = mapGet st.sessions n) ∧
    (∀ s, BridgeSession.jsParseInt s = none →
      BridgeSession.findSession st (.byStr s)
        = BridgeSession.findByExactName st s) ∧
    ((∃ e, BridgeSession.switchTo now st arg = .error e) ↔
      BridgeSession.findSession st arg = none) ∧
    (∀ sess, BridgeSession.findSession st arg = some sess →
      BridgeSession.switchTo now st arg
        = .ok ({ sess with lastActiveAt := now },
               { st with
                 sessions :=
                   mapSet st.sessions sess.id { sess with lastActiveAt := now }
                 activeSessionId := some sess.id })) := by
  refine ⟨?_, ?_, ?_, ?_⟩
  · intro s n h
    simp only [BridgeSession.findSession, h]
  · intro s h
    simp only [BridgeSession.findSession, h]
  · unfold BridgeSession.switchTo
    match hfind : BridgeSession.findSession st arg with
    | none => simp
    | some sess => simp
  · intro sess hfind
    unfold BridgeSession.switchTo
    rw [hfind]

/-- Witness for C9 as amended: a session whose name does not parse as a
number is found by the exact-name scan, and switching to it succeeds and
updates the active id and `lastActiveAt`. -/
theorem claim_C9_switch_resolution_witness :
    BridgeSession.findSession
        ⟨[(1, { id := 1, name := "alpha", workingDirectory := "/d",
                status := .idle, createdAt := 0, lastActiveAt := 0 })],
         none, 2⟩ (.byStr "alpha")
      = some { id := 1, name := "alpha", workingDirectory := "/d",
               status := .idle, createdAt := 0, lastActiveAt := 0 } ∧
    BridgeSession.switchTo 7
        ⟨[(1, { id := 1, name := "alpha", workingDirectory := "/d",
                status := .idle, createdAt := 0, lastActiveAt := 0 })],
         none, 2⟩ (.byStr "alpha")
      = .ok ({ id := 1, name := "alpha", workingDirectory := "/d",
               status := .idle, createdAt := 0, lastActiveAt := 7 },
             ⟨[(1, { id := 1, name := "alpha", workingDirectory := "/d",
                     status := .idle, createdAt := 0, lastActiveAt := 7 })],
              some 1, 2⟩) :=
  ⟨by decide,
   (claim_C9_switch_resolution 7
      ⟨[(1, { id := 1, name := "alpha", workingDirectory := "/d",
              status := .idle, createdAt := 0, lastActiveAt := 0 })],
       none, 2⟩ (.byStr "alpha")).2.2.2
     { id := 1, name := "alpha", workingDirectory := "/d", status := .idle
       createdAt := 0, lastActiveAt := 0 } (by decide)⟩

/-- C8.  Queue FIFO: messages received while the session is busy are
appended to the queue in arrival order and dispatched in that order, one
per `done` event; a receive while busy dispatches nothing, and a `done`
dispatches exactly the head of the queue, so no queued message ever
overtakes an earlier-queued one. -/
theorem claim_C8_queue_fifo (s : Bridge.BridgeState) (m1 m2 m3 : String)
    (hb : s.busy = true) (hr : s.running = true) :
    (Bridge.recvMessage (Bridge.recvMessage (Bridge.recvMessage s m1) m2) m3
      = { s with queue := s.queue ++ [m1, m2, m3] }) ∧
    (s.queue = [] →
      (Bridge.runEvents s [.recv m1, .recv m2, .recv m3, .done]).dispatched
        = s.dispatched ++ [m1] ∧
      (Bridge.runEvents s
          [.recv m1, .recv m2, .recv m3, .done, .done]).dispatched
        = s.dispatched ++ [m1, m2] ∧
      (Bridge.runEvents s
          [.recv m1, .recv m2, .recv m3, .done, .done, .done]).dispatched
        = s.dispatched ++ [m1, m2, m3]) ∧
    (∀ t (u : Bridge.BridgeState), u.busy = true →
      Bridge.recvMessage u t = { u with queue := u.queue ++ [t] }) ∧
    (∀ (u : Bridge.BridgeState), u.running = true →
      Bridge.onDone u
        = match u.queue with
          | [] => { u with busy := false }
          | m :: rest =>
              { u with busy := true, queue := rest
                       dispatched := u.dispatched ++ [m] }) := by
  have hrecv : ∀ t (u : Bridge.BridgeState), u.busy = true →
      Bridge.recvMessage u t = { u with queue := u.queue ++ [t] } := by
    intro t u hu
    simp [Bridge.recvMessage, hu]
  have hdone : ∀ (u : Bridge.BridgeState), u.running = true →
      Bridge.onDone u
        = match u.queue with
          | [] => { u with busy := false }
          | m :: rest =>
              { u with busy := true, queue := rest
                       dispatched := u.dispatched ++ [m] } := by
    intro u hu
    unfold Bridge.onDone
    match hq : u.queue with
    | [] =>
        rw [Bridge.processQueue]
    | m :: rest =>
        rw [Bridge.processQueue]
        simp [hq, hu]
  have h3 : Bridge.recvMessage (Bridge.recvMessage (Bridge.recvMessage s m1) m2) m3
      = { s with queue := s.queue ++ [m1, m2, m3] } := by
    rw [hrecv m1 s hb, hrecv m2 _ (by simp [hb]), hrecv m3 _ (by simp [hb])]
    simp
  refine ⟨h3, ?_, hrecv, hdone⟩
  intro hq
  have hrun3 : Bridge.runEvents s [.recv m1, .recv m2, .recv m3]
      = { s with queue := s.queue ++ [m1, m2, m3] } := by
    simp [Bridge.runEvents, h3]
  have hs3q : ({ s with queue := s.queue ++ [m1, m2, m3] } :
      Bridge.BridgeState).queue = [m1, m2, m3] := by simp [hq]
  have hd1 : Bridge.onDone { s with queue := s.queue ++ [m1, m2, m3] }
      = { s with busy := true, queue := [m2, m3]
                 dispatched := s.dispatched ++ [m1] } := by
    rw [hdone _ (by simp [hr])]
    simp [hq]
  have hd2 : Bridge.onDone
        ({ s with busy := true, queue := [m2, m3]
                  dispatched := s.dispatched ++ [m1] })
      = { s with busy := true, queue := [m3]
                 dispatched := s.dispatched ++ [m1, m2] } := by
    rw [hdone _ (by simp [hr])]
    simp
  have hd3 : Bridge.onDone
        ({ s with busy := true, queue := [m3]
                  dispatched := s.dispatched ++ [m1, m2] })
      = { s with busy := true, queue := []
                 dispatched := s.dispatched ++ [m1, m2, m3] } := by
    rw [hdone _ (by simp [hr])]
    simp
  refine ⟨?_, ?_, ?_⟩
  · show (Bridge.runEvents s
        ([.recv m1, .recv m2, .recv m3] ++ [.done])).dispatched = _
    simp [Bridge.runEvents, h3, hd1]
  · show (Bridge.runEvents s
        ([.recv m1, .recv m2, .recv m3] ++ [.done, .done])).dispatched = _
    simp [Bridge.runEvents, h3, hd1, hd2]
  · show (Bridge.runEvents s
        ([.recv m1, .recv m2, .recv m3] ++ [.done, .done, .done])).dispatched = _
    simp [Bridge.runEvents, h3, hd1, hd2, hd3]

/-- Witness for C8: from a busy state with an empty queue, three queued
messages followed by three `done` events are dispatched in arrival
order. -/
theorem claim_C8_queue_fifo_witness :
    (Bridge.runEvents ⟨true, true, [], []⟩
        [.recv "a", .recv "b", .recv "c", .done, .done, .done]).dispatched
      = ["a", "b", "c"] :=
  ((claim_C8_queue_fifo ⟨true, true, [], []⟩ "a" "b" "c" rfl rfl).2.1 rfl).2.2

/-- C10.  Auth-gate invariants of the chat front-end: a chat id enters
the authenticated set only by sending, as non-command text while in the
pending-auth state, exactly the configured password; an authenticated
chat id is never removed, in one step or over any run; and a non-command
text from an unauthenticated chat id emits no `message` event. -/
theorem claim_C10_auth_gate (password : String) (st : TelegramBot.BotState)
    (chatId : Nat) (text : String) :
    (∀ c, c ∈ (TelegramBot.onMessage password st chatId text).1.authenticatedChats →
      c ∈ st.authenticatedChats ∨
      (c = chatId ∧ Guard.strStartsWith text "/" = false ∧
        chatId ∈ st.pendingAuth ∧ text = password)) ∧
    (∀ c, c ∈ st.authenticatedChats →
      c ∈ (TelegramBot.onMessage password st chatId text).1.authenticatedChats) ∧
    (∀ msgs c, c ∈ st.authenticatedChats →
      c ∈ (TelegramBot.run password st msgs).1.authenticatedChats) ∧
    (Guard.strStartsWith text "/" = false →
      chatId ∉ st.authenticatedChats →
      ∀ c t, TelegramBot.BotOutput.messageEvent c t
        ∉ (TelegramBot.onMessage password st chatId text).2) := by
  have step : ∀ (pw : String) (u : TelegramBot.BotState) (ch : Nat) (tx : String),
      (TelegramBot.onMessage pw u ch tx).1.authenticatedChats = u.authenticatedChats ∨
      ((TelegramBot.onMessage pw u ch tx).1.authenticatedChats
          = TelegramBot.setAdd u.authenticatedChats ch ∧
        Guard.strStartsWith tx "/" = false ∧ ch ∈ u.pendingAuth ∧ tx = pw) := by
    intro pw u ch tx
    by_cases hs : Guard.strStartsWith tx "/" = true
    · left
      unfold TelegramBot.onMessage TelegramBot.handleCommand
      simp only [hs, if_true]
      split_ifs <;> rfl
    · have hs' : Guard.strStartsWith tx "/" = false := by simpa using hs
      by_cases ha : ch ∈ u.authenticatedChats
      · left
        unfold TelegramBot.onMessage
        simp [hs', ha]
      · by_cases hp : ch ∈ u.pendingAuth
        · by_cases heq : tx = pw
          · right
            refine ⟨?_, hs', hp, heq⟩
            unfold TelegramBot.onMessage
            rw [if_neg (by simp [hs'])]
            rw [if_pos (by simp [ha])]
            unfold TelegramBot.handleAuth
            rw [if_neg (by simp [hp])]
            rw [if_pos (by simp [heq])]
          · left
            unfold TelegramBot.onMessage TelegramBot.handleAuth
            simp [hs', ha, hp, heq]
        · left
          unfold TelegramBot.onMessage TelegramBot.handleAuth
          simp [hs', ha, hp]
  have mono : ∀ (pw : String) (u : TelegramBot.BotState) (ch : Nat) (tx : String) (c : Nat),
      c ∈ u.authenticatedChats →
      c ∈ (TelegramBot.onMessage pw u ch tx).1.authenticatedChats := by
    intro pw u ch tx c hc
    rcases step pw u ch tx with h | ⟨h, _⟩
    · rw [h]; exact hc
    · rw [h]
      unfold TelegramBot.setAdd
      split_ifs
      · exact hc
      · exact List.mem_append_left _ hc
  refine ⟨?_, fun c hc => mono password st chatId text c hc, ?_, ?_⟩
  · intro c hc
    rcases step password st chatId text with h | ⟨h, hs, hp, hpw⟩
    · rw [h] at hc
      exact Or.inl hc
    · rw [h] at hc
      unfold TelegramBot.setAdd at hc
      by_cases hmem : chatId ∈ st.authenticatedChats
      · have hcon : st.authenticatedChats.contains chatId = true := by
          simp [hmem]
        rw [hcon] at hc
        simp only [if_true] at hc
        exact Or.inl hc
      · have hcon : st.authenticatedChats.contains chatId = false := by
          simp [hmem]
        rw [hcon] at hc
        simp only [Bool.false_eq_true, if_false, List.mem_append,
          List.mem_singleton] at hc
        rcases hc with hc | hc
        · exact Or.inl hc
        · exact Or.inr ⟨hc, hs, hp, hpw⟩
  · intro msgs
    induction msgs generalizing st with
    | nil => intro c hc; simpa [TelegramBot.run] using hc
    | cons m rest ih =>
        intro c hc
        obtain ⟨ch, tx⟩ := m
        simp only [TelegramBot.run]
        exact ih _ _ (mono password st ch tx c hc)
  · intro hs ha c t
    unfold TelegramBot.onMessage TelegramBot.handleAuth
    simp only [hs, Bool.false_eq_true, if_false]
    by_cases hp : chatId ∈ st.pendingAuth
    · simp [ha, hp]
      split_ifs <;> simp
    · simp [ha, hp]

/-- Witness for C10: a non-command text from a chat id outside the
authenticated set produces no `message` event. -/
theorem claim_C10_auth_gate_witness :
    TelegramBot.BotOutput.messageEvent 5 "hello"
      ∉ (TelegramBot.onMessage "pw" ⟨[], []⟩ 5 "hello").2 :=
  (claim_C10_auth_gate "pw" ⟨[], []⟩ 5 "hello").2.2.2 (by decide)
    (by decide) 5 "hello"



/-- A character absent from the list is never found by the
`lastIndexOf` model. -/
theorem jsLastIndexOf_of_not_mem (l : List Char) (c : Char) (pos : Nat)
    (h : c ∉ l) : TextUtil.jsLastIndexOf l c pos = none := by
  simp only [TextUtil.jsLastIndexOf]
  have hf : (l.take (pos + 1)).reverse.findIdx? (· == c) = none := by
    rw [List.findIdx?_eq_none_iff]
    intro x hx
    have hxl : x ∈ l := List.mem_of_mem_take (List.mem_reverse.mp hx)
    exact beq_eq_false_iff_ne.mpr (fun hxc => h (hxc ▸ hxl))
  rw [hf]

/-- A hit of the `lastIndexOf` model lies within the search window. -/
theorem jsLastIndexOf_le_pos (l : List Char) (c : Char) (pos i : Nat)
    (h : TextUtil.jsLastIndexOf l c pos = some i) : i ≤ pos := by
  simp only [TextUtil.jsLastIndexOf] at h
  rcases hf : (l.take (pos + 1)).reverse.findIdx? (· == c) with _ | j
  · rw [hf] at h
    cases h
  · rw [hf] at h
    simp only [Option.some.injEq] at h
    have hlen : (l.take (pos + 1)).length ≤ pos + 1 := by
      rw [List.length_take]
      exact Nat.min_le_left _ _
    omega

/-- For positive `maxLength` the chosen split point is positive and at
most `maxLength`. -/
theorem pickSplit_bounds (rem : List Char) (maxLength : Nat)
    (hm : 0 < maxLength) :
    0 < TextUtil.pickSplit rem maxLength ∧
      TextUtil.pickSplit rem maxLength ≤ maxLength := by
  rcases hn : TextUtil.jsLastIndexOf rem '\n' maxLength with _ | i
  · rcases hs : TextUtil.jsLastIndexOf rem ' ' maxLength with _ | j
    · simp only [TextUtil.pickSplit, hn, hs]
      exact ⟨hm, le_refl _⟩
    · have hj := jsLastIndexOf_le_pos rem ' ' maxLength j hs
      simp only [TextUtil.pickSplit, hn, hs]
      split_ifs <;> omega
  · rcases hs : TextUtil.jsLastIndexOf rem ' ' maxLength with _ | j
    · have hi := jsLastIndexOf_le_pos rem '\n' maxLength i hn
      by_cases h2 : 2 * i < maxLength <;>
        simp [TextUtil.pickSplit, hn, hs, h2] <;> omega
    · have hi := jsLastIndexOf_le_pos rem '\n' maxLength i hn
      have hj := jsLastIndexOf_le_pos rem ' ' maxLength j hs
      by_cases h2 : 2 * i < maxLength <;> by_cases h3 : 2 * j < maxLength <;>
        simp [TextUtil.pickSplit, hn, hs, h2, h3] <;> omega

/-- Unfolding of one iteration of the `splitText` loop on a non-empty
remainder. -/
theorem splitTextGo_cons (maxLength fuel : Nat) (rem : List Char)
    (hne : rem ≠ []) :
    TextUtil.splitTextGo maxLength (fuel + 1) rem
      = if rem.length ≤ maxLength then [rem]
        else
          rem.take (TextUtil.pickSplit rem maxLength)
            :: TextUtil.splitTextGo maxLength fuel
                ((rem.drop (TextUtil.pickSplit rem maxLength)).dropWhile
                  TextUtil.isJsWhitespace) := by
  match rem with
  | [] => exact absurd rfl hne
  | c :: cs => rfl

/-- Each iteration of the `splitText` loop strictly shortens the
remainder. -/
theorem splitRest_lt (rem : List Char) (maxLength : Nat) (hm : 0 < maxLength)
    (hlen : maxLength < rem.length) :
    ((rem.drop (TextUtil.pickSplit rem maxLength)).dropWhile
        TextUtil.isJsWhitespace).length < rem.length := by
  have h1 := (pickSplit_bounds rem maxLength hm).1
  have hd : (rem.drop (TextUtil.pickSplit rem maxLength)).length < rem.length := by
    rw [List.length_drop]
    omega
  exact lt_of_le_of_lt ((List.dropWhile_suffix _).sublist.length_le) hd

/-- Every chunk produced by the `splitText` loop respects the length
bound. -/
theorem splitTextGo_chunk_le (maxLength : Nat) (hm : 0 < maxLength) :
    ∀ (fuel : Nat) (rem : List Char), rem.length < fuel →
      ∀ c ∈ TextUtil.splitTextGo maxLength fuel rem, c.length ≤ maxLength := by
  intro fuel
  induction fuel with
  | zero => intro rem h; omega
  | succ f ih =>
      intro rem hlt c hc
      rcases eq_or_ne rem [] with hnil | hne
      · subst hnil
        simp [TextUtil.splitTextGo] at hc
      · rw [splitTextGo_cons _ _ _ hne] at hc
        by_cases hle : rem.length ≤ maxLength
        · rw [if_pos hle] at hc
          simp only [List.mem_singleton] at hc
          subst hc
          exact hle
        · rw [if_neg hle] at hc
          simp only [List.mem_cons] at hc
          rcases hc with hc | hc
          · subst hc
            have hmin : (rem.take (TextUtil.pickSplit rem maxLength)).length
                ≤ TextUtil.pickSplit rem maxLength := by
              rw [List.length_take]
              exact Nat.min_le_left _ _
            have := (pickSplit_bounds rem maxLength hm).2
            omega
          · have hdec := splitRest_lt rem maxLength hm (by omega)
            exact ih _ (by omega) c hc

/-- Every chunk produced by `splitText` is at most `maxLength` long. -/
theorem splitText_chunk_le (text : List Char) (maxLength : Nat)
    (hm : 0 < maxLength) :
    ∀ c ∈ TextUtil.splitText text maxLength, c.length ≤ maxLength := by
  intro c hc
  unfold TextUtil.splitText at hc
  by_cases h : text.length ≤ maxLength
  · rw [if_pos h] at hc
    simp only [List.mem_singleton] at hc
    subst hc
    exact h
  · rw [if_neg h] at hc
    exact splitTextGo_chunk_le maxLength hm _ text (by omega) c hc



/-- Leading-whitespace trimming leaves a run of non-whitespace
characters unchanged. -/
theorem dropWhile_replicate_of_neg (p : Char → Bool) (a : Char) (n : Nat)
    (h : p a = false) :
    (List.replicate n a).dropWhile p = List.replicate n a := by
  cases n with
  | zero => rfl
  | succ m =>
      rw [List.replicate_succ, List.dropWhile_cons, h]
      simp

/-- A positive-length run is non-empty. -/
theorem replicate_pos_ne_nil (n : Nat) (a : Char) (hn : 0 < n) :
    List.replicate n a ≠ [] := by
  intro hc
  have hlen := congrArg List.length hc
  rw [List.length_replicate] at hlen
  simp at hlen
  omega

/-- A run of one character contains no other character. -/
theorem not_mem_replicate_of_ne (c a : Char) (n : Nat) (h : c ≠ a) :
    c ∉ List.replicate n a := by
  simp only [List.mem_replicate]
  intro hc
  exact h hc.2

/-- On a run of 8000 `a`s the split point is the hard cut at 4000. -/
theorem pickSplit_replicate_a :
    TextUtil.pickSplit (List.replicate 8000 'a') 4000 = 4000 := by
  have hn : TextUtil.jsLastIndexOf (List.replicate 8000 'a') '\n' 4000 = none :=
    jsLastIndexOf_of_not_mem _ _ _ (not_mem_replicate_of_ne _ _ _ (by decide))
  have hs : TextUtil.jsLastIndexOf (List.replicate 8000 'a') ' ' 4000 = none :=
    jsLastIndexOf_of_not_mem _ _ _ (not_mem_replicate_of_ne _ _ _ (by decide))
  simp only [TextUtil.pickSplit, hn, hs]

/-- Splitting a run of 8000 `a`s at 4000 yields two runs of 4000. -/
theorem splitText_replicate_a :
    TextUtil.splitText (List.replicate 8000 'a') 4000
      = [List.replicate 4000 'a', List.replicate 4000 'a'] := by
  unfold TextUtil.splitText
  rw [List.length_replicate, if_neg (by omega)]
  rw [splitTextGo_cons 4000 8000 _ (replicate_pos_ne_nil _ _ (by omega))]
  rw [if_neg (by rw [List.length_replicate]; omega)]
  rw [pickSplit_replicate_a]
  rw [List.take_replicate, List.drop_replicate]
  rw [show (4000 : Nat) ⊓ 8000 = 4000 by norm_num,
    show (8000 : Nat) - 4000 = 4000 by norm_num]
  rw [dropWhile_replicate_of_neg _ _ _ (by decide)]
  rw [show (8000 : Nat) = 7999 + 1 by norm_num]
  rw [splitTextGo_cons 4000 7999 _ (replicate_pos_ne_nil _ _ (by omega))]
  rw [if_pos (by rw [List.length_replicate])]



/-- A non-nil list is not empty. -/
theorem isEmpty_false_of_ne_nil (l : List Char) (h : l ≠ []) :
    l.isEmpty = false := by
  cases l with
  | nil => exact absurd rfl h
  | cons a t => rfl

/-- The frames sent for a run of 8000 `a`s: two tagged chunks of 4000
characters each. -/
theorem sendFrames_replicate_a :
    TextUtil.sendFrames (List.replicate 8000 'a') 4000
      = [TextUtil.chunkTag 1 2 ++ List.replicate 4000 'a',
         TextUtil.chunkTag 2 2 ++ List.replicate 4000 'a'] := by
  simp only [TextUtil.sendFrames]
  rw [isEmpty_false_of_ne_nil _ (replicate_pos_ne_nil _ _ (by omega))]
  rw [if_neg (by simp)]
  rw [splitText_replicate_a]
  rw [show ([List.replicate 4000 'a', List.replicate 4000 'a'] :
      List (List Char)).length = 2 from rfl]
  simp only [TextUtil.frameLoop]
  rw [if_pos (by norm_num), if_pos (by norm_num)]



/-- In the text starting `x` + newline followed by 6000 `y`s, the last
newline within the 4000-character window sits at index 1. -/
theorem jsLastIndexOf_t2 :
    TextUtil.jsLastIndexOf ('x' :: '\n' :: List.replicate 6000 'y') '\n' 4000
      = some 1 := by
  simp only [TextUtil.jsLastIndexOf]
  rw [List.take_succ_cons, show (4000 : Nat) = 3999 + 1 by norm_num,
    List.take_succ_cons, List.take_replicate,
    show (3999 : Nat) ⊓ 6000 = 3999 by norm_num]
  rw [List.reverse_cons, List.reverse_cons, List.reverse_replicate]
  rw [List.findIdx?_append, List.findIdx?_append, List.findIdx?_replicate]
  rw [if_neg (by decide)]
  rw [show List.findIdx? (fun x => x == '\n') ['\n'] = some 0 from by decide]
  rw [show List.findIdx? (fun x => x == '\n') ['x'] = none from by decide]
  simp only [Option.map_some, Option.or_none, Option.none_or, Option.map_none,
    List.length_replicate, List.length_append, List.length_cons,
    List.length_nil]
  norm_num



/-- The second counterexample text contains no space. -/
theorem space_not_mem_t2 : ' ' ∉ ('x' :: '\n' :: List.replicate 6000 'y') := by
  intro hmem
  rcases List.mem_cons.mp hmem with h1 | hmem2
  · exact absurd h1 (by decide)
  rcases List.mem_cons.mp hmem2 with h2 | hmem3
  · exact absurd h2 (by decide)
  · exact absurd hmem3 (not_mem_replicate_of_ne _ _ _ (by decide))

/-- The split point for the second counterexample text is the hard cut
at 4000, not the newline at index 1 (which is below the halfway mark). -/
theorem pickSplit_t2 :
    TextUtil.pickSplit ('x' :: '\n' :: List.replicate 6000 'y') 4000 = 4000 := by
  have hsp := jsLastIndexOf_of_not_mem
    ('x' :: '\n' :: List.replicate 6000 'y') ' ' 4000 space_not_mem_t2
  simp only [TextUtil.pickSplit, jsLastIndexOf_t2, hsp]
  rw [if_pos (by norm_num)]

/-- Length of the second counterexample text. -/
theorem t2_length : ('x' :: '\n' :: List.replicate 6000 'y').length = 6002 := by
  simp only [List.length_cons, List.length_replicate]

/-- The first chunk of the second counterexample text has 4000
characters, so the split did not happen at the newline. -/
theorem splitText_t2_head :
    (TextUtil.splitText ('x' :: '\n' :: List.replicate 6000 'y') 4000).head?.map
        List.length = some 4000 := by
  unfold TextUtil.splitText
  rw [t2_length, if_neg (by omega)]
  rw [splitTextGo_cons 4000 6002 _ (List.cons_ne_nil _ _)]
  rw [if_neg (by rw [t2_length]; omega)]
  rw [pickSplit_t2]
  rw [List.head?_cons]
  have htk : (List.take 4000 ('x' :: '\n' :: List.replicate 6000 'y')).length
      = 4000 := by
    rw [List.length_take, t2_length]
    norm_num
  rw [show Option.map List.length
      (some (List.take 4000 ('x' :: '\n' :: List.replicate 6000 'y')))
      = some (List.take 4000
          ('x' :: '\n' :: List.replicate 6000 'y')).length from rfl]
  rw [htk]

/-- Element-wise description of the chunk framing loop. -/
theorem frameLoop_getElem (n : Nat) (l : List (List Char)) :
    ∀ (i j : Nat), (TextUtil.frameLoop n i l)[j]?
      = (l[j]?).map
          (fun c => if n > 1 then TextUtil.chunkTag (i + j + 1) n ++ c else c) := by
  induction l with
  | nil => intro i j; simp [TextUtil.frameLoop]
  | cons c cs ih =>
      intro i j
      cases j with
      | zero => simp [TextUtil.frameLoop]
      | succ j' =>
          simp only [TextUtil.frameLoop, List.getElem?_cons_succ]
          rw [ih (i + 1) j']
          have harith : i + 1 + j' + 1 = i + (j' + 1) + 1 := by omega
          rw [harith]

/-- With at most one chunk the framing loop adds no tags. -/
theorem frameLoop_of_le_one (n : Nat) (hn : n ≤ 1) (l : List (List Char)) :
    ∀ i, TextUtil.frameLoop n i l = l := by
  induction l with
  | nil => intro i; rfl
  | cons c cs ih =>
      intro i
      simp only [TextUtil.frameLoop]
      rw [if_neg (by omega), ih]



/-- Counterexample for C7.  A 8000-character text with no newline or
whitespace is split into two 4000-character chunks, and the first frame
actually sent is the chunk plus its 6-character marker, 4006 characters,
exceeding the 4000-character channel bound; moreover a newline below the
halfway mark is ignored by the splitter (hard cut at 4000), contrary to
the last-newline-within-the-window policy. -/
theorem claim_C7_counterexample :
    ((TextUtil.sendFrames (List.replicate 8000 'a') 4000).head?.map List.length
        = some 4006) ∧
    TextUtil.MAX_MESSAGE_LENGTH < 4006 ∧
    TextUtil.jsLastIndexOf ('x' :: '\n' :: List.replicate 6000 'y') '\n' 4000
        = some 1 ∧
    ((TextUtil.splitText ('x' :: '\n' :: List.replicate 6000 'y') 4000).head?.map
        List.length = some 4000) := by
  refine ⟨?_, by norm_num [TextUtil.MAX_MESSAGE_LENGTH], jsLastIndexOf_t2,
    splitText_t2_head⟩
  rw [sendFrames_replicate_a, List.head?_cons]
  rw [show Option.map List.length
      (some (TextUtil.chunkTag 1 2 ++ List.replicate 4000 'a'))
      = some ((TextUtil.chunkTag 1 2 ++ List.replicate 4000 'a').length) from rfl]
  rw [List.length_append, List.length_replicate]
  rw [show (TextUtil.chunkTag 1 2).length = 6 from by decide]

/-- C7 as amended.  Every chunk produced by `splitText` is within the
bound; when several chunks result each sent frame is its chunk prefixed
by the multipart marker (so a frame may exceed the bound by the marker
length, and only by that); a single chunk is sent unprefixed; and when
the text exceeds the bound the first chunk ends at the split point
chosen by the policy: last newline in the window at or past the halfway
mark, else last whitespace at or past the halfway mark, else a hard cut
at the bound. -/
theorem claim_C7_chunking (text : List Char) (maxLength : Nat)
    (hm : 0 < maxLength) :
    (∀ c ∈ TextUtil.splitText text maxLength, c.length ≤ maxLength) ∧
    (text.isEmpty = false → ∀ i c,
      (TextUtil.splitText text maxLength)[i]? = some c →
      1 < (TextUtil.splitText text maxLength).length →
      (TextUtil.sendFrames text maxLength)[i]?
        = some (TextUtil.chunkTag (i + 1)
            (TextUtil.splitText text maxLength).length ++ c)) ∧
    (text.isEmpty = false → (TextUtil.splitText text maxLength).length ≤ 1 →
      TextUtil.sendFrames text maxLength = TextUtil.splitText text maxLength) ∧
    (maxLength < text.length →
      TextUtil.splitText text maxLength
        = text.take (TextUtil.pickSplit text maxLength)
            :: TextUtil.splitTextGo maxLength text.length
                ((text.drop (TextUtil.pickSplit text maxLength)).dropWhile
                  TextUtil.isJsWhitespace)) := by
  refine ⟨splitText_chunk_le text maxLength hm, ?_, ?_, ?_⟩
  · intro hne i c hget hlen
    simp only [TextUtil.sendFrames, hne]
    rw [if_neg (by simp)]
    rw [frameLoop_getElem _ _ 0 i, hget]
    rw [show Option.map (fun c =>
        if (TextUtil.splitText text maxLength).length > 1 then
          TextUtil.chunkTag (0 + i + 1)
            (TextUtil.splitText text maxLength).length ++ c
        else c) (some c)
      = some (if (TextUtil.splitText text maxLength).length > 1 then
          TextUtil.chunkTag (0 + i + 1)
            (TextUtil.splitText text maxLength).length ++ c
        else c) from rfl]
    rw [if_pos hlen]
    rw [show 0 + i + 1 = i + 1 from by omega]
  · intro hne hlen
    simp only [TextUtil.sendFrames, hne]
    rw [if_neg (by simp)]
    exact frameLoop_of_le_one _ hlen _ 0
  · intro hlt
    unfold TextUtil.splitText
    rw [if_neg (by omega)]
    rw [splitTextGo_cons maxLength text.length text
      (List.ne_nil_of_length_pos (by omega))]
    rw [if_neg (by omega)]

/-- Witness for C7 as amended: on a concrete three-character text with
bound 1, the second conjunct yields the tagged first frame. -/
theorem claim_C7_chunking_witness :
    (0 : Nat) < 1 ∧
    (TextUtil.splitText ['a', 'b', 'c'] 1)[0]? = some ['a'] ∧
    (TextUtil.sendFrames ['a', 'b', 'c'] 1)[0]?
      = some (TextUtil.chunkTag (0 + 1)
          (TextUtil.splitText ['a', 'b', 'c'] 1).length ++ ['a']) :=
  ⟨by decide, by decide,
   (claim_C7_chunking ['a', 'b', 'c'] 1 (by decide)).2.1 (by decide) 0 ['a']
     (by decide) (by decide)⟩


end ClaudeRemote
